import Mathlib

/-!
Shallow embedding of `clever_flight_routines/__init__.py` (CopterExpress/clever_tools).

Modelling conventions:
* Coordinates and parameters are rationals (`ℚ`); Python floats' NaN sentinel for
  "unspecified" (`yaw=float('nan')`, the `z` override of `fly_route`) is modelled as
  `Option ℚ` with `none` standing for NaN, so `math.isnan v` becomes `v = none`.
* `math.sqrt` is the real square root `Real.sqrt`, applied to the rational sum of squares.
* ROS service calls and sleeps are events: `takeoff`, `reach_point` and `fly_route`
  produce the list of external calls they perform, driven by a telemetry stream
  `ℕ → Telem` indexed by poll tick, and fuel bounding the number of loop iterations
  (the source loops have no timeout and may spin forever).
* `create_route`'s two `threading.Event` triggers are per-tick boolean observations
  `ℕ → Bool`; the function returns the list of points written to the CSV file and
  `some t` when it returned at tick `t` (`none` if fuel ran out first).
* The CSV file is a list of records, each a list of field strings; the external
  `csv` module and float text formatting are abstracted as an encoder `ℚ → String`
  and a decoder `String → Option ℚ` (a `float(...)` call that can raise).
-/

namespace CleverFlightRoutines

/-- Module-level constant `FREQUENCY = 10` (Hz). -/
def FREQUENCY : ℕ := 10

/-- Module-level constant `TOLERANCE = 0.2` (m). -/
def TOLERANCE : ℚ := 1/5

/-- Module-level constant `SPEED = 1.0` (m/s). -/
def SPEED : ℚ := 1

/-- Module-level constant `TAKEOFF_SPEED = 1.0` (m/s). -/
def TAKEOFF_SPEED : ℚ := 1

/-- Module-level constant `TAKEOFF_HEIGHT = 1.0` (m). -/
def TAKEOFF_HEIGHT : ℚ := 1

/-- Module-level constant `LOCAL_FRAME_ID = 'map'`. -/
def LOCAL_FRAME_ID : String := "map"

/-- Module-level constant `COPTER_FRAME_ID = 'body'`. -/
def COPTER_FRAME_ID : String := "body"

/-- A telemetry snapshot: the position fields of `get_telemetry`'s reply used here. -/
structure Telem where
  x : ℚ
  y : ℚ
  z : ℚ
deriving Repr, DecidableEq

/-- The radicand of `get_distance`: `(x1-x2)**2 + (y1-y2)**2 + (z1-z2)**2`. -/
def sqDist (x1 y1 z1 x2 y2 z2 : ℚ) : ℚ :=
  (x1 - x2) ^ 2 + (y1 - y2) ^ 2 + (z1 - z2) ^ 2

/-- `get_distance(x1, y1, z1, x2, y2, z2)`:
`math.sqrt((x1 - x2) ** 2 + (y1 - y2) ** 2 + (z1 - z2) ** 2)`. -/
noncomputable def get_distance (x1 y1 z1 x2 y2 z2 : ℚ) : ℝ :=
  Real.sqrt ((sqDist x1 y1 z1 x2 y2 z2 : ℚ) : ℝ)

/-- Continuation condition of `reach_point`'s polling loop:
`delta > tolerance` where `delta = get_distance(x, y, z, telem.x, telem.y, telem.z)`. -/
def reachContinue (x y z tolerance : ℚ) (telem : Telem) : Prop :=
  get_distance x y z telem.x telem.y telem.z > (tolerance : ℝ)

theorem sqDist_nonneg (x1 y1 z1 x2 y2 z2 : ℚ) : 0 ≤ sqDist x1 y1 z1 x2 y2 z2 := by
  have h1 : (0:ℚ) ≤ (x1 - x2) ^ 2 := sq_nonneg _
  have h2 : (0:ℚ) ≤ (y1 - y2) ^ 2 := sq_nonneg _
  have h3 : (0:ℚ) ≤ (z1 - z2) ^ 2 := sq_nonneg _
  unfold sqDist
  linarith

theorem get_distance_nonneg (x1 y1 z1 x2 y2 z2 : ℚ) :
    0 ≤ get_distance x1 y1 z1 x2 y2 z2 :=
  Real.sqrt_nonneg _

/-- The real-valued comparison `sqrt s > tol` reduced to rational arithmetic. -/
theorem reachContinue_iff (x y z tolerance : ℚ) (telem : Telem) :
    reachContinue x y z tolerance telem ↔
      tolerance < 0 ∨
        (0 ≤ tolerance ∧ tolerance ^ 2 < sqDist x y z telem.x telem.y telem.z) := by
  unfold reachContinue get_distance
  constructor
  · intro h
    rcases lt_or_le tolerance 0 with hneg | hpos
    · exact Or.inl hneg
    · refine Or.inr ⟨hpos, ?_⟩
      have hcast : (0:ℝ) ≤ (tolerance : ℝ) := by exact_mod_cast hpos
      have := (Real.lt_sqrt hcast).mp h
      exact_mod_cast this
  · intro h
    rcases h with hneg | ⟨hpos, hlt⟩
    · have hcast : ((tolerance : ℚ) : ℝ) < 0 := by exact_mod_cast hneg
      exact lt_of_lt_of_le hcast (Real.sqrt_nonneg _)
    · have hcast : (0:ℝ) ≤ (tolerance : ℝ) := by exact_mod_cast hpos
      refine (Real.lt_sqrt hcast).mpr ?_
      exact_mod_cast hlt

instance (x y z tolerance : ℚ) (telem : Telem) :
    Decidable (reachContinue x y z tolerance telem) :=
  decidable_of_iff _ (reachContinue_iff x y z tolerance telem).symm

/-- C1: in `reach_point`, a pose at distance exactly `t = tolerance` from the target
satisfies `¬(delta > t)`, i.e. the loop exits: arrival IS satisfied at distance exactly
`t`, contrary to the claim. Concrete input: target `(0,0,0)`, pose `(1,0,0)`,
tolerance `1`: the distance equals the tolerance and the continuation condition fails. -/
theorem reach_point_boundary_counterexample :
    get_distance 0 0 0 1 0 0 = (1 : ℚ) ∧ ¬ reachContinue 0 0 0 1 ⟨1, 0, 0⟩ := by
  constructor
  · unfold get_distance sqDist
    norm_num
  · rw [reachContinue_iff]
    unfold sqDist
    norm_num

/-- C1 (amended): a pose whose distance to the target is exactly the tolerance `t`
DOES satisfy the arrival condition (the strict `>` drives continuation, so the loop
exits at `delta ≤ t`), and a pose at distance `t - ε` for `ε > 0` also satisfies it. -/
theorem reach_point_arrival_boundary (x y z t ε : ℚ) (telem : Telem) (hε : 0 < ε) :
    (get_distance x y z telem.x telem.y telem.z = (t : ℝ) →
      ¬ reachContinue x y z t telem) ∧
    (get_distance x y z telem.x telem.y telem.z = ((t - ε : ℚ) : ℝ) →
      ¬ reachContinue x y z t telem) := by
  constructor
  · intro hdist hcont
    unfold reachContinue at hcont
    rw [hdist] at hcont
    exact lt_irrefl _ hcont
  · intro hdist hcont
    unfold reachContinue at hcont
    rw [hdist] at hcont
    have hlt : ((t - ε : ℚ) : ℝ) < (t : ℝ) := by
      have : (t - ε : ℚ) < t := by linarith
      exact_mod_cast this
    exact absurd (lt_trans hcont hlt) (lt_irrefl _)

/-- Witness for C1's amended theorem: target `(0,0,0)`, tolerance `2`, `ε = 1`;
the pose `(2,0,0)` is at distance exactly `2 = t`, the pose `(1,0,0)` is at
distance `1 = t - ε`; both satisfy arrival. -/
theorem reach_point_arrival_boundary_witness :
    ¬ reachContinue 0 0 0 2 ⟨2, 0, 0⟩ ∧ ¬ reachContinue 0 0 0 2 ⟨1, 0, 0⟩ := by
  constructor
  · refine (reach_point_arrival_boundary 0 0 0 2 1 ⟨2, 0, 0⟩ (by norm_num)).1 ?_
    unfold get_distance sqDist
    norm_num
    rw [show (4:ℝ) = (2:ℝ)^2 by norm_num]
    exact Real.sqrt_sq (by norm_num)
  · refine (reach_point_arrival_boundary 0 0 0 2 1 ⟨1, 0, 0⟩ (by norm_num)).2 ?_
    unfold get_distance sqDist
    norm_num

/-- Events performed by `fly_route`: one call of the supplied flight function per
point, and one `time.sleep(delay)` per iteration. -/
inductive RouteEv where
  | fly (x y z speed : ℚ) (frame_id : String)
  | sleepFor (delay : ℚ)
deriving Repr, DecidableEq

/-- The `z_result` computation of `fly_route`:
`z_result = point['z']; if not math.isnan(z): z_result = z` — the NaN sentinel is
modelled by `none`. -/
def zResult (z : Option ℚ) (pz : ℚ) : ℚ :=
  match z with
  | some zo => zo
  | none => pz

/-- `fly_route(route, flight_function, z, delay, speed, frame_id)`: for each point,
call the flight function at `(point['x'], point['y'], z_result)`, then
`time.sleep(delay)`. The trace of calls is returned in order. -/
def fly_route (route : List Telem) (z : Option ℚ) (delay speed : ℚ)
    (frame_id : String) : List RouteEv :=
  route.flatMap fun p =>
    [RouteEv.fly p.x p.y (zResult z p.z) speed frame_id, RouteEv.sleepFor delay]

/-- Test for the fly event, used to count flight-function invocations. -/
def RouteEv.isFly : RouteEv → Bool
  | .fly _ _ _ _ _ => true
  | .sleepFor _ => false

/-- The altitude argument of each flight-function invocation of a trace, in order. -/
def flyAltitudes (evs : List RouteEv) : List ℚ :=
  evs.filterMap fun e =>
    match e with
    | .fly _ _ zr _ _ => some zr
    | .sleepFor _ => none

theorem fly_route_get?_even (route : List Telem) (z : Option ℚ) (delay speed : ℚ)
    (frame_id : String) (k : ℕ) :
    (fly_route route z delay speed frame_id).get? (2 * k) =
      (route.get? k).map (fun p =>
        RouteEv.fly p.x p.y (zResult z p.z) speed frame_id) := by
  induction route generalizing k with
  | nil => simp [fly_route]
  | cons p ps ih =>
    cases k with
    | zero => simp [fly_route]
    | succ k =>
      have h2 : 2 * (k + 1) = (2 * k) + 1 + 1 := by ring
      simp only [fly_route, List.flatMap_cons] at ih ⊢
      rw [h2]
      simpa [fly_route] using ih k

theorem fly_route_get?_odd (route : List Telem) (z : Option ℚ) (delay speed : ℚ)
    (frame_id : String) (k : ℕ) :
    (fly_route route z delay speed frame_id).get? (2 * k + 1) =
      (route.get? k).map (fun _ => RouteEv.sleepFor delay) := by
  induction route generalizing k with
  | nil => simp [fly_route]
  | cons p ps ih =>
    cases k with
    | zero => simp [fly_route]
    | succ k =>
      have h2 : 2 * (k + 1) + 1 = (2 * k + 1) + 1 + 1 := by ring
      simp only [fly_route, List.flatMap_cons] at ih ⊢
      rw [h2]
      simpa [fly_route] using ih k

theorem fly_route_length (route : List Telem) (z : Option ℚ) (delay speed : ℚ)
    (frame_id : String) :
    (fly_route route z delay speed frame_id).length = 2 * route.length := by
  induction route with
  | nil => simp [fly_route]
  | cons p ps ih =>
    simp only [fly_route, List.flatMap_cons] at ih ⊢
    simp [ih]
    ring

/-- C2 (counterexample to the claim as stated): for the one-point route `[(0,0,1)]`
with the default delay `0.1`, the trace ends with a settle delay — the delay DOES
occur after the last invocation of the fly primitive. -/
theorem fly_route_delay_after_last_counterexample :
    fly_route [⟨0, 0, 1⟩] none (1/10) 1 "map" =
      [RouteEv.fly 0 0 1 1 "map", RouteEv.sleepFor (1/10)] ∧
    (fly_route [⟨0, 0, 1⟩] none (1/10) 1 "map").getLast? =
      some (RouteEv.sleepFor (1/10)) := by
  constructor <;> rfl

/-- C2 (amended): for every Route of N waypoints, `fly_route` invokes the fly
primitive exactly N times, strictly in the Route's order; the settle delay occurs
immediately after every invocation — hence between consecutive invocations and
never before the first — but it also occurs once after the last invocation. -/
theorem fly_route_sequencing (route : List Telem) (z : Option ℚ) (delay speed : ℚ)
    (frame_id : String) :
    ((fly_route route z delay speed frame_id).filter RouteEv.isFly).length =
        route.length ∧
    (∀ k : ℕ,
      (fly_route route z delay speed frame_id).get? (2 * k) =
        (route.get? k).map (fun p =>
          RouteEv.fly p.x p.y (zResult z p.z) speed frame_id) ∧
      (fly_route route z delay speed frame_id).get? (2 * k + 1) =
        (route.get? k).map (fun _ => RouteEv.sleepFor delay)) ∧
    (fly_route route z delay speed frame_id).length = 2 * route.length := by
  refine ⟨?_, fun k => ⟨fly_route_get?_even route z delay speed frame_id k,
    fly_route_get?_odd route z delay speed frame_id k⟩,
    fly_route_length route z delay speed frame_id⟩
  induction route with
  | nil => simp [fly_route]
  | cons p ps ih =>
    simp only [fly_route, List.flatMap_cons] at ih ⊢
    simp [RouteEv.isFly, ih]

/-- C3: the altitude passed to the fly primitive is the `z` override when one is
provided (non-NaN, modelled as `some`), and the waypoint's stored altitude
otherwise; in particular on Route `[(0,0,1),(0,0,2)]` an override of `5` yields
altitudes `[5, 5]` and no override (NaN) yields `[1, 2]`. -/
theorem fly_route_altitude_override (route : List Telem) (delay speed : ℚ)
    (frame_id : String) :
    (∀ zo : ℚ, flyAltitudes (fly_route route (some zo) delay speed frame_id) =
        route.map fun _ => zo) ∧
    (flyAltitudes (fly_route route none delay speed frame_id) =
        route.map fun p => p.z) ∧
    flyAltitudes (fly_route [⟨0,0,1⟩, ⟨0,0,2⟩] (some 5) delay speed frame_id) =
        [5, 5] ∧
    flyAltitudes (fly_route [⟨0,0,1⟩, ⟨0,0,2⟩] none delay speed frame_id) =
        [1, 2] := by
  refine ⟨?_, ?_, rfl, rfl⟩
  · intro zo
    induction route with
    | nil => rfl
    | cons p ps ih =>
      simp only [fly_route, List.flatMap_cons] at ih ⊢
      simp [flyAltitudes, zResult] at ih ⊢
      exact ih
  · induction route with
    | nil => rfl
    | cons p ps ih =>
      simp only [fly_route, List.flatMap_cons] at ih ⊢
      simp [flyAltitudes, zResult] at ih ⊢
      exact ih

/-- Control position inside `create_route`'s nested loops:
`outer` is the `while not stop_trigger.is_set()` check, `waitStart` the
`while not add_trigger.is_set()` sub-loop check, `waitRelease` the
`while add_trigger.is_set()` sub-loop check. -/
inductive Phase where
  | outer
  | waitStart
  | waitRelease
deriving Repr, DecidableEq

/-- One run of `create_route`'s loop nest from a given phase, tick and list of
already-written points. Triggers are observed per poll tick (`rate.sleep()`
advances the tick); each recursive step consumes one unit of fuel. The result is
the list of points written to the CSV file, paired with `some t` if the function
returned at tick `t`, or `none` if fuel ran out first. -/
def createRouteLoop (addT stopT : ℕ → Bool) (telem : ℕ → Telem) :
    Phase → ℕ → ℕ → List Telem → List Telem × Option ℕ
  | _, 0, _, acc => (acc, none)
  | .outer, fuel + 1, t, acc =>
      if stopT t then (acc, some t)
      else createRouteLoop addT stopT telem .waitStart fuel t acc
  | .waitStart, fuel + 1, t, acc =>
      if addT t then
        createRouteLoop addT stopT telem .waitRelease fuel t (acc ++ [telem t])
      else
        if stopT t then (acc, some t)
        else createRouteLoop addT stopT telem .waitStart fuel (t + 1) acc
  | .waitRelease, fuel + 1, t, acc =>
      if addT t then
        if stopT t then (acc, some t)
        else createRouteLoop addT stopT telem .waitRelease fuel (t + 1) acc
      else createRouteLoop addT stopT telem .outer fuel t acc

/-- `create_route(filename, add_trigger, stop_trigger, frame_id)`: run the loop nest
from the outer check at tick 0 with an empty file. -/
def create_route (addT stopT : ℕ → Bool) (telem : ℕ → Telem) (fuel : ℕ) :
    List Telem × Option ℕ :=
  createRouteLoop addT stopT telem .outer fuel 0 []

/-- While the add trigger stays observed set and the stop trigger stays unset, the
wait-for-release sub-loop writes nothing and never returns. -/
theorem createRouteLoop_waitRelease_held (addT stopT : ℕ → Bool) (telem : ℕ → Telem)
    (fuel t : ℕ) (acc : List Telem)
    (h : ∀ s, t ≤ s → s < t + fuel → addT s = true ∧ stopT s = false) :
    createRouteLoop addT stopT telem .waitRelease fuel t acc = (acc, none) := by
  induction fuel generalizing t with
  | zero => rfl
  | succ fuel ih =>
    have ht := h t le_rfl (by omega)
    rw [createRouteLoop, ht.1, ht.2]
    simp only [if_true, if_false, Bool.false_eq_true]
    exact ih (t + 1) fun s hs1 hs2 => h s (by omega) (by omega)

/-- C5: Recorder edge-triggering. For every trigger schedule in which the add/start
trigger is observed set and held from tick 0 for at least `n` ticks while the stop
trigger stays unset, any run of `create_route` observing only those ticks
(`fuel ≤ n + 1`) writes exactly one point — the pose sampled at tick 0 — no matter
how many ticks the trigger is held. -/
theorem create_route_edge_triggered (addT stopT : ℕ → Bool) (telem : ℕ → Telem)
    (n fuel : ℕ) (h : ∀ s, s < n → addT s = true ∧ stopT s = false)
    (h2 : 2 ≤ fuel) (hn : fuel ≤ n + 1) :
    (create_route addT stopT telem fuel).1 = [telem 0] := by
  obtain ⟨f, rfl⟩ : ∃ f, fuel = f + 2 := ⟨fuel - 2, by omega⟩
  have h0 := h 0 (by omega)
  unfold create_route
  rw [createRouteLoop, h0.2]
  simp only [Bool.false_eq_true, if_false]
  rw [createRouteLoop, h0.1]
  simp only [if_true]
  rw [createRouteLoop_waitRelease_held addT stopT telem f 0 ([] ++ [telem 0])
    fun s hs1 hs2 => h s (by omega)]
  rfl

/-- Witness for C5: with the add trigger constantly set and the stop trigger
constantly unset, a run with fuel 3 inside a 4-tick hold records exactly the
single pose sampled at tick 0. -/
theorem create_route_edge_triggered_witness :
    (create_route (fun _ => true) (fun _ => false) (fun _ => ⟨0, 0, 0⟩) 3).1 =
      [⟨0, 0, 0⟩] :=
  create_route_edge_triggered (fun _ => true) (fun _ => false) (fun _ => ⟨0, 0, 0⟩)
    4 3 (fun s _ => ⟨rfl, rfl⟩) (by norm_num) (by norm_num)

/-- C6: Recorder responsiveness. If at the wait-for-start check the add trigger is
observed unset and the stop trigger set, `create_route` returns at that same tick
with no further writes; likewise if at the wait-for-release check (post-capture,
trigger still held) the stop trigger is observed set. -/
theorem create_route_stop_responsive (addT stopT : ℕ → Bool) (telem : ℕ → Telem)
    (fuel t : ℕ) (acc : List Telem) (hfuel : 1 ≤ fuel) (hstop : stopT t = true) :
    (addT t = false →
      createRouteLoop addT stopT telem .waitStart fuel t acc = (acc, some t)) ∧
    (addT t = true →
      createRouteLoop addT stopT telem .waitRelease fuel t acc = (acc, some t)) := by
  obtain ⟨f, rfl⟩ : ∃ f, fuel = f + 1 := ⟨fuel - 1, by omega⟩
  constructor
  · intro hadd
    rw [createRouteLoop, hadd, hstop]
    simp
  · intro hadd
    rw [createRouteLoop, hadd, hstop]
    simp

/-- Witness for C6: with stop set and add unset at tick 0, the wait-for-start check
returns immediately at tick 0; with both set, the wait-for-release check returns
immediately at tick 0. -/
theorem create_route_stop_responsive_witness :
    createRouteLoop (fun _ => false) (fun _ => true) (fun _ => ⟨0, 0, 0⟩)
        .waitStart 1 0 [] = ([], some 0) ∧
    createRouteLoop (fun _ => true) (fun _ => true) (fun _ => ⟨0, 0, 0⟩)
        .waitRelease 1 0 [] = ([], some 0) :=
  ⟨(create_route_stop_responsive (fun _ => false) (fun _ => true)
      (fun _ => ⟨0, 0, 0⟩) 1 0 [] (by norm_num) rfl).1 rfl,
   (create_route_stop_responsive (fun _ => true) (fun _ => true)
      (fun _ => ⟨0, 0, 0⟩) 1 0 [] (by norm_num) rfl).2 rfl⟩

/-- C10: at a wait-for-start check where the add trigger and the stop trigger are
both observed set, the start check precedes the stop check, so one pose is sampled
and written before the subsequent stop check (in the wait-for-release sub-loop)
terminates recording at the same tick. -/
theorem create_route_capture_before_stop (addT stopT : ℕ → Bool) (telem : ℕ → Telem)
    (fuel t : ℕ) (acc : List Telem) (hfuel : 2 ≤ fuel)
    (hadd : addT t = true) (hstop : stopT t = true) :
    createRouteLoop addT stopT telem .waitStart fuel t acc =
      (acc ++ [telem t], some t) := by
  obtain ⟨f, rfl⟩ : ∃ f, fuel = f + 2 := ⟨fuel - 2, by omega⟩
  rw [createRouteLoop, hadd]
  simp only [if_true]
  rw [createRouteLoop, hadd, hstop]
  simp

/-- Witness for C10: with both triggers constantly set, the wait-for-start check at
tick 0 writes the tick-0 pose and then returns at tick 0. -/
theorem create_route_capture_before_stop_witness :
    createRouteLoop (fun _ => true) (fun _ => true) (fun _ => ⟨1, 2, 3⟩)
        .waitStart 2 0 [] = ([⟨1, 2, 3⟩], some 0) :=
  create_route_capture_before_stop (fun _ => true) (fun _ => true)
    (fun _ => ⟨1, 2, 3⟩) 2 0 [] (by norm_num) rfl rfl

/-- External calls performed by the arrival pollers `takeoff` and `reach_point`:
telemetry reads, the single `navigate` service call (with its auto-arm flag; `yaw`
is `none` for the NaN sentinel), and `rate.sleep()` ticks. -/
inductive FlightEv where
  | getTelem (tm : Telem)
  | navigate (x y z : ℚ) (yaw : Option ℚ) (speed : ℚ) (frame_id : String)
      (auto_arm : Bool)
  | sleep
deriving Repr, DecidableEq

/-- Test for the navigate event, used to count issued motion commands. -/
def FlightEv.isNavigate : FlightEv → Bool
  | .navigate _ _ _ _ _ _ _ => true
  | _ => false

/-- Number of `navigate` service calls in a trace. -/
def countNavigate (evs : List FlightEv) : ℕ :=
  (evs.filter FlightEv.isNavigate).length

/-- The polling loop of `reach_point`: `while delta > tolerance:` read telemetry,
recompute `delta`, sleep one tick. `last` is the telemetry sample `delta` was last
computed from; tick `k` indexes the telemetry stream; fuel bounds the iterations
(the source loop has no timeout). -/
def reachPointLoop (x y z tolerance : ℚ) (telem : ℕ → Telem) :
    ℕ → ℕ → Telem → List FlightEv
  | 0, _, _ => []
  | fuel + 1, k, last =>
      if reachContinue x y z tolerance last then
        FlightEv.getTelem (telem k) :: FlightEv.sleep ::
          reachPointLoop x y z tolerance telem fuel (k + 1) (telem k)
      else []

/-- `reach_point(x, y, z, yaw, speed, tolerance, frame_id)`: read telemetry once,
issue the single `navigate` call (no auto-arm), then poll until
`delta ≤ tolerance`. The trace of external calls is returned. -/
def reach_point (x y z : ℚ) (yaw : Option ℚ) (speed tolerance : ℚ)
    (frame_id : String) (telem : ℕ → Telem) (fuel : ℕ) : List FlightEv :=
  FlightEv.getTelem (telem 0) ::
    FlightEv.navigate x y z yaw speed frame_id false ::
      reachPointLoop x y z tolerance telem fuel 1 (telem 0)

/-- The polling loop of `takeoff`: `while abs(climb - height) > tolerance:` read
telemetry, recompute `climb = abs(telem.z - start_z)`, sleep one tick. -/
def takeoffLoop (height tolerance start_z : ℚ) (telem : ℕ → Telem) :
    ℕ → ℕ → ℚ → List FlightEv
  | 0, _, _ => []
  | fuel + 1, k, climb =>
      if |climb - height| > tolerance then
        FlightEv.getTelem (telem k) :: FlightEv.sleep ::
          takeoffLoop height tolerance start_z telem fuel (k + 1)
            |(telem k).z - start_z|
      else []

/-- `takeoff(height, speed, tolerance, frame_id)`: read the start pose, issue the
single `navigate` call to `start.z + height` with `auto_arm=True` and NaN yaw,
then poll `climb = abs(z - start.z)` against the height until within tolerance. -/
def takeoff (height speed tolerance : ℚ) (frame_id : String) (telem : ℕ → Telem)
    (fuel : ℕ) : List FlightEv :=
  FlightEv.getTelem (telem 0) ::
    FlightEv.navigate (telem 0).x (telem 0).y ((telem 0).z + height) none speed
        frame_id true ::
      takeoffLoop height tolerance (telem 0).z telem fuel 1 0

theorem reachPointLoop_no_navigate (x y z tolerance : ℚ) (telem : ℕ → Telem)
    (fuel k : ℕ) (last : Telem) :
    countNavigate (reachPointLoop x y z tolerance telem fuel k last) = 0 := by
  induction fuel generalizing k last with
  | zero => rfl
  | succ fuel ih =>
    rw [reachPointLoop]
    by_cases h : reachContinue x y z tolerance last
    · rw [if_pos h]
      simpa [countNavigate, FlightEv.isNavigate] using ih (k + 1) (telem k)
    · rw [if_neg h]
      rfl

theorem takeoffLoop_no_navigate (height tolerance start_z : ℚ) (telem : ℕ → Telem)
    (fuel k : ℕ) (climb : ℚ) :
    countNavigate (takeoffLoop height tolerance start_z telem fuel k climb) = 0 := by
  induction fuel generalizing k climb with
  | zero => rfl
  | succ fuel ih =>
    rw [takeoffLoop]
    by_cases h : |climb - height| > tolerance
    · rw [if_pos h]
      simpa [countNavigate, FlightEv.isNavigate] using ih (k + 1) _
    · rw [if_neg h]
      rfl

/-- C8: each call of `reach_point` or `takeoff` issues exactly one `navigate`
command, placed up front — right after the single initial telemetry read and
before the polling loop, whose iterations issue none — regardless of how many
polling ticks elapse; the takeoff variant requests auto-arm and the point-reach
variant does not. -/
theorem single_navigate_command (x y z : ℚ) (yaw : Option ℚ)
    (speed tolerance height : ℚ) (frame_id : String) (telem : ℕ → Telem)
    (fuel : ℕ) :
    countNavigate (reach_point x y z yaw speed tolerance frame_id telem fuel) = 1 ∧
    (reach_point x y z yaw speed tolerance frame_id telem fuel).get? 1 =
      some (FlightEv.navigate x y z yaw speed frame_id false) ∧
    countNavigate (takeoff height speed tolerance frame_id telem fuel) = 1 ∧
    (takeoff height speed tolerance frame_id telem fuel).get? 1 =
      some (FlightEv.navigate (telem 0).x (telem 0).y ((telem 0).z + height) none
        speed frame_id true) := by
  refine ⟨?_, rfl, ?_, rfl⟩
  · unfold reach_point
    simp [countNavigate, FlightEv.isNavigate] at *
    have := reachPointLoop_no_navigate x y z tolerance telem fuel 1 (telem 0)
    simpa [countNavigate] using this
  · unfold takeoff
    simp [countNavigate, FlightEv.isNavigate] at *
    have := takeoffLoop_no_navigate height tolerance (telem 0).z telem fuel 1 0
    simpa [countNavigate] using this

/-- C9: the initial arrival check of `reach_point` uses the pose sampled before the
`navigate` command; if that pre-command pose is already within the tolerance of the
target, the polling loop is never entered and the whole trace is the one telemetry
read followed by the single navigate command. -/
theorem reach_point_immediate_return (x y z : ℚ) (yaw : Option ℚ)
    (speed tolerance : ℚ) (frame_id : String) (telem : ℕ → Telem) (fuel : ℕ)
    (h : get_distance x y z (telem 0).x (telem 0).y (telem 0).z ≤ (tolerance : ℝ)) :
    reach_point x y z yaw speed tolerance frame_id telem fuel =
      [FlightEv.getTelem (telem 0),
       FlightEv.navigate x y z yaw speed frame_id false] := by
  have hnot : ¬ reachContinue x y z tolerance (telem 0) := not_lt.mpr h
  unfold reach_point
  cases fuel with
  | zero => rfl
  | succ fuel =>
    rw [reachPointLoop, if_neg hnot]

/-- Witness for C9: target `(0,0,0)` with the copter already at `(0,0,0)` and the
default tolerance `0.2`: the trace is exactly one telemetry read and one navigate
call, for any fuel (here 5). -/
theorem reach_point_immediate_return_witness :
    reach_point 0 0 0 none SPEED TOLERANCE "map" (fun _ => ⟨0, 0, 0⟩) 5 =
      [FlightEv.getTelem ⟨0, 0, 0⟩,
       FlightEv.navigate 0 0 0 none SPEED "map" false] := by
  refine reach_point_immediate_return 0 0 0 none SPEED TOLERANCE "map"
    (fun _ => ⟨0, 0, 0⟩) 5 ?_
  unfold get_distance sqDist TOLERANCE
  norm_num

/-- The CSV records produced by `create_route`'s writer: one
`csv_writer.writerow([telem.x, telem.y, telem.z])` per captured point, i.e. one
record of the three numeric fields rendered to text by the encoder `enc`
(the external float-to-decimal-text formatting). -/
def routeFileOfPoints (enc : ℚ → String) (ps : List Telem) : List (List String) :=
  ps.map fun p => [enc p.x, enc p.y, enc p.z]

/-- One iteration of `read_route`'s row loop: `x, y, z = row` (raises unless the
record has exactly three fields) followed by `float(x), float(y), float(z)`
(each may raise on non-numeric text); `dec` is the external decimal parse,
`none` standing for a raised `ValueError`. -/
def parseRow (dec : String → Option ℚ) : List String → Option Telem
  | [sx, sy, sz] =>
      match dec sx, dec sy, dec sz with
      | some a, some b, some c => some ⟨a, b, c⟩
      | _, _, _ => none
  | _ => none

/-- `read_route(filename)`: `none` input models `open(filename)` raising `IOError`,
in which case the error is logged and the function falls through returning Python's
`None` (modelled `Except.ok none`); otherwise every record is parsed in order and
appended to `imported_points` (`Except.ok (some points)`), a malformed record
raising out of the function (`Except.error ()`). -/
def read_route (dec : String → Option ℚ) :
    Option (List (List String)) → Except Unit (Option (List Telem))
  | none => Except.ok none
  | some rows =>
      match rows.mapM (parseRow dec) with
      | some pts => Except.ok (some pts)
      | none => Except.error ()

/-- C7: when the route file cannot be opened, `read_route` does not raise: it
returns the absent result `none` after logging, which is distinct from the empty
route `some []` obtained by reading an existing empty file. -/
theorem read_route_open_failure (dec : String → Option ℚ) :
    read_route dec none = Except.ok none ∧
    read_route dec (some []) = Except.ok (some []) ∧
    read_route dec none ≠ read_route dec (some []) := by
  refine ⟨rfl, rfl, fun h => ?_⟩
  have h2 : (Except.ok (none : Option (List Telem)) : Except Unit _) =
      Except.ok (some ([] : List Telem)) := h
  simp at h2

/-- C4: route storage round-trips. For every sequence of captured poses, writing
them as the Recorder's writer does and reading the file back with `read_route`
succeeds and yields exactly as many `(x,y,z)` triples, equal to the written ones
and in the same order, provided the decimal parse recovers each written field
(the claim's "decimal text fidelity"). -/
theorem route_roundtrip (enc : ℚ → String) (dec : String → Option ℚ)
    (ps : List Telem)
    (h : ∀ p ∈ ps, dec (enc p.x) = some p.x ∧ dec (enc p.y) = some p.y ∧
      dec (enc p.z) = some p.z) :
    read_route dec (some (routeFileOfPoints enc ps)) = Except.ok (some ps) := by
  have hmap : (routeFileOfPoints enc ps).mapM (parseRow dec) = some ps := by
    induction ps with
    | nil => rfl
    | cons p ps ih =>
      have hp := h p (List.mem_cons_self p ps)
      have hrest := ih fun q hq => h q (List.mem_cons_of_mem p hq)
      have hrow : parseRow dec [enc p.x, enc p.y, enc p.z] = some p := by
        simp only [parseRow, hp.1, hp.2.1, hp.2.2]
      simp only [routeFileOfPoints, List.map_cons, List.mapM_cons] at *
      rw [hrow, hrest]
      rfl
  simp only [read_route, hmap]

/-- Witness for C4: the route `[(1,2,3)]` with a concrete integer rendering of the
coordinate text round-trips to the same single triple. -/
theorem route_roundtrip_witness :
    read_route
        (fun s => if s = "1" then some 1 else if s = "2" then some 2
          else if s = "3" then some 3 else none)
        (some (routeFileOfPoints (fun q => toString q.num) [⟨1, 2, 3⟩])) =
      Except.ok (some [⟨1, 2, 3⟩]) := by
  refine route_roundtrip (fun q => toString q.num)
    (fun s => if s = "1" then some 1 else if s = "2" then some 2
      else if s = "3" then some 3 else none) [⟨1, 2, 3⟩] ?_
  intro p hp
  simp only [List.mem_singleton] at hp
  subst hp
  refine ⟨?_, ?_, ?_⟩ <;> decide

end CleverFlightRoutines
